import Mathlib

/-!
Verification development for `mw.go`.

`mw.go` is a single `init` routine: a `switch` on `runtime.GOOS` fills the two
locals `cmd` and `args` (or returns on `default`), and the routine ends with
`exec.Command(cmd, args...).Start()`, whose returned error is dropped.

The embedding keeps that shape.  The `switch` is `switchGOOS`; the call into
`os/exec` is `Command` followed by `Cmd.Start`, which appends one `spawn` effect
to an explicit trace and yields whatever error value the host decides on; `init`
threads the trace and ignores the error, as the source does.  Which of the logged
`Start` calls left a child process is read off the trace by `processes`, from the
answers of the host.
-/

namespace mw

/-! ## Data model -/

/-- Effects a process can perform on a child through `os/exec`: start it, wait for
it, read its exit status, capture its output. -/
inductive Effect where
  | spawn (name : String) (arg : List String)
  | wait
  | exitStatus
  | captureOutput
  deriving DecidableEq

/-- Recogniser of the `spawn` effect. -/
def Effect.isSpawn : Effect → Bool
  | Effect.spawn _ _ => true
  | _ => false

/-- The value built by `exec.Command(name, arg...)`: the program to run and the
arguments that follow it. -/
structure Cmd where
  name : String
  arg : List String
  deriving DecidableEq

/-- The Go call `exec.Command(name, arg...)`. -/
def Command (name : String) (arg : List String) : Cmd :=
  { name := name, arg := arg }

/-- The Go `error` value: `none` is `nil`, `some msg` is a non-nil error. -/
abbrev GoError := Option String

/-- The host's answer to an attempt to start a command: `nil`, or the error with
which the start failed (for instance because the binary is absent). -/
abbrev StartOutcome := Cmd → GoError

/-- The Go method `(*Cmd).Start`: it records one `spawn` effect for the command (the
start attempt, whether or not the host then reports a failure) and returns the
error the host answers with.  It neither waits nor reads a status. -/
def Cmd.Start (c : Cmd) (host : StartOutcome) (tr : List Effect) : GoError × List Effect :=
  (host c, tr ++ [Effect.spawn c.name c.arg])

/-- The locals `cmd` and `args` of `init` once the `switch` has assigned them. -/
structure Locals where
  cmd : String
  args : List String
  deriving DecidableEq

/-- The local `url` of `init`. -/
def url : String := "https://github.com/orenngi/mw"

/-- The statement `switch runtime.GOOS { ... }` of `init`.  The three `case`
branches assign `cmd` and `args`; `none` stands for `default: return`. -/
def switchGOOS (GOOS : String) : Option Locals :=
  if GOOS = "windows" then
    some { cmd := "rundll32", args := ["url.dll,FileProtocolHandler", url] }
  else if GOOS = "darwin" then
    some { cmd := "open", args := [url] }
  else if GOOS = "linux" then
    some { cmd := "xdg-open", args := [url] }
  else
    none

/-- The routine `init`, run on platform `GOOS` against a host that decides how a
start attempt ends, from the effect trace `tr`.  The first component is how the
routine completes (`Except.ok ()` is a normal return, `Except.error e` an error
reaching the caller); the second is the trace afterwards.  The error returned by
`Start` is bound and dropped, as in the source. -/
def init (GOOS : String) (host : StartOutcome) (tr : List Effect) :
    Except String Unit × List Effect :=
  match switchGOOS GOOS with
  | none => (Except.ok (), tr)
  | some l =>
    let started := Cmd.Start (Command l.cmd l.args) host tr
    let _err := started.1
    (Except.ok (), started.2)

/-- The effects `init` adds when run from the empty trace. -/
def initEffects (GOOS : String) (host : StartOutcome) : List Effect :=
  (init GOOS host []).2

/-- The child processes that exist after the `Start` calls logged in a trace: a
logged `Start` leaves a child exactly when the host answered `nil` for its
command.  A failed start (the binary is absent, say) is logged and leaves none. -/
def processes (host : StartOutcome) : List Effect → List Cmd
  | [] => []
  | Effect.spawn name arg :: rest =>
    if host (Command name arg) = none then
      Command name arg :: processes host rest
    else
      processes host rest
  | _ :: rest => processes host rest

/-- A host on which no binary can be started: every start attempt fails. -/
def absentHost : StartOutcome :=
  fun _ => some "executable file not found"

/-- The three platform identifiers named by the `case` labels. -/
def supported (GOOS : String) : Prop :=
  GOOS = "windows" ∨ GOOS = "darwin" ∨ GOOS = "linux"

instance (GOOS : String) : Decidable (supported GOOS) := by
  unfold supported; infer_instance

/-! ## Helper lemmas -/

theorem switchGOOS_windows :
    switchGOOS "windows"
      = some { cmd := "rundll32", args := ["url.dll,FileProtocolHandler", url] } := by
  simp [switchGOOS]

theorem switchGOOS_darwin :
    switchGOOS "darwin" = some { cmd := "open", args := [url] } := by
  simp [switchGOOS]

theorem switchGOOS_linux :
    switchGOOS "linux" = some { cmd := "xdg-open", args := [url] } := by
  simp [switchGOOS]

theorem switchGOOS_other (g : String) (h : ¬ supported g) : switchGOOS g = none := by
  unfold supported at h
  simp only [not_or] at h
  simp [switchGOOS, h.1, h.2.1, h.2.2]

/-- The `switch` has exactly four outcomes. -/
theorem switchGOOS_cases (g : String) :
    (g = "windows" ∧ switchGOOS g
        = some { cmd := "rundll32", args := ["url.dll,FileProtocolHandler", url] }) ∨
    (g = "darwin" ∧ switchGOOS g = some { cmd := "open", args := [url] }) ∨
    (g = "linux" ∧ switchGOOS g = some { cmd := "xdg-open", args := [url] }) ∨
    (¬ supported g ∧ switchGOOS g = none) := by
  by_cases hw : g = "windows"
  · subst hw; exact Or.inl ⟨rfl, switchGOOS_windows⟩
  · by_cases hd : g = "darwin"
    · subst hd; exact Or.inr (Or.inl ⟨rfl, switchGOOS_darwin⟩)
    · by_cases hl : g = "linux"
      · subst hl; exact Or.inr (Or.inr (Or.inl ⟨rfl, switchGOOS_linux⟩))
      · have hns : ¬ supported g := by
          unfold supported; simp [hw, hd, hl]
        exact Or.inr (Or.inr (Or.inr ⟨hns, switchGOOS_other g hns⟩))

/-- A selected command comes from one of the three `case` branches. -/
theorem switchGOOS_some (g : String) (l : Locals) (h : switchGOOS g = some l) :
    (g = "windows" ∧
        l = { cmd := "rundll32", args := ["url.dll,FileProtocolHandler", url] }) ∨
    (g = "darwin" ∧ l = { cmd := "open", args := [url] }) ∨
    (g = "linux" ∧ l = { cmd := "xdg-open", args := [url] }) := by
  rcases switchGOOS_cases g with ⟨hg, hs⟩ | ⟨hg, hs⟩ | ⟨hg, hs⟩ | ⟨_, hs⟩
  · rw [hs] at h; exact Or.inl ⟨hg, (Option.some.inj h).symm⟩
  · rw [hs] at h; exact Or.inr (Or.inl ⟨hg, (Option.some.inj h).symm⟩)
  · rw [hs] at h; exact Or.inr (Or.inr ⟨hg, (Option.some.inj h).symm⟩)
  · rw [hs] at h; cases h

theorem init_of_some (g : String) (l : Locals) (h : switchGOOS g = some l)
    (host : StartOutcome) (tr : List Effect) :
    init g host tr = (Except.ok (), tr ++ [Effect.spawn l.cmd l.args]) := by
  simp [init, h, Cmd.Start, Command]

theorem init_of_none (g : String) (h : switchGOOS g = none)
    (host : StartOutcome) (tr : List Effect) :
    init g host tr = (Except.ok (), tr) := by
  simp [init, h]

/-! ## The three supported platforms -/

/-- C1: on the platform "windows" the switch selects the command "rundll32" with
the two-element argument vector made of "url.dll,FileProtocolHandler" followed by
the fixed URL, and `init` spawns exactly that command: from any trace and for any
start outcome it appends that one spawn effect and nothing else. -/
theorem C1_windows_selects_rundll32 :
    switchGOOS "windows"
        = some { cmd := "rundll32",
                 args := ["url.dll,FileProtocolHandler", "https://github.com/orenngi/mw"] } ∧
    (∀ (host : StartOutcome) (tr : List Effect),
      (init "windows" host tr).2
        = tr ++ [Effect.spawn "rundll32"
                  ["url.dll,FileProtocolHandler", "https://github.com/orenngi/mw"]]) ∧
    (∀ host : StartOutcome,
      initEffects "windows" host
        = [Effect.spawn "rundll32"
            ["url.dll,FileProtocolHandler", "https://github.com/orenngi/mw"]]) := by
  refine ⟨switchGOOS_windows, fun host tr => ?_, fun host => ?_⟩
  · rw [init_of_some "windows" _ switchGOOS_windows]; rfl
  · unfold initEffects
    rw [init_of_some "windows" _ switchGOOS_windows]; rfl

/-- C2: on the platform "darwin" the switch selects the command "open" with the
one-element argument vector holding the fixed URL, and `init` spawns exactly that
command: from any trace and for any start outcome it appends that one spawn
effect and nothing else. -/
theorem C2_darwin_selects_open :
    switchGOOS "darwin"
        = some { cmd := "open", args := ["https://github.com/orenngi/mw"] } ∧
    (∀ (host : StartOutcome) (tr : List Effect),
      (init "darwin" host tr).2
        = tr ++ [Effect.spawn "open" ["https://github.com/orenngi/mw"]]) ∧
    (∀ host : StartOutcome,
      initEffects "darwin" host
        = [Effect.spawn "open" ["https://github.com/orenngi/mw"]]) := by
  refine ⟨switchGOOS_darwin, fun host tr => ?_, fun host => ?_⟩
  · rw [init_of_some "darwin" _ switchGOOS_darwin]; rfl
  · unfold initEffects
    rw [init_of_some "darwin" _ switchGOOS_darwin]; rfl

/-- C3: on the platform "linux" the switch selects the command "xdg-open" with the
one-element argument vector holding the fixed URL, and `init` spawns exactly that
command: from any trace and for any start outcome it appends that one spawn
effect and nothing else. -/
theorem C3_linux_selects_xdg_open :
    switchGOOS "linux"
        = some { cmd := "xdg-open", args := ["https://github.com/orenngi/mw"] } ∧
    (∀ (host : StartOutcome) (tr : List Effect),
      (init "linux" host tr).2
        = tr ++ [Effect.spawn "xdg-open" ["https://github.com/orenngi/mw"]]) ∧
    (∀ host : StartOutcome,
      initEffects "linux" host
        = [Effect.spawn "xdg-open" ["https://github.com/orenngi/mw"]]) := by
  refine ⟨switchGOOS_linux, fun host tr => ?_, fun host => ?_⟩
  · rw [init_of_some "linux" _ switchGOOS_linux]; rfl
  · unfold initEffects
    rw [init_of_some "linux" _ switchGOOS_linux]; rfl

/-! ## Every other platform -/

/-- C4, as the claim states it, fails: on the platform "linux", one of the three
exact values, against a host on which the start of `xdg-open` fails, `init` makes
its `Start` call and yet no process exists afterwards, so "a process is spawned
if and only if the platform string is one of the three" is false there. -/
theorem C4_process_iff_supported_fails :
    ¬ (processes absentHost (initEffects "linux" absentHost) ≠ []
        ↔ ("linux" = "windows" ∨ "linux" = "darwin" ∨ "linux" = "linux")) := by
  have hp : processes absentHost (initEffects "linux" absentHost) = [] := by
    unfold initEffects
    rw [init_of_some "linux" _ switchGOOS_linux]
    simp [processes, absentHost]
  rw [hp]
  intro h
  exact (h.mpr (Or.inr (Or.inr rfl))) rfl

/-- C4, amended: the switch selects no command exactly when the platform string is
none of "windows", "darwin", "linux"; in that case `init` leaves the effect trace
as it was, makes no `Start` call and leaves no process.  A `Start` call is made
if and only if the platform string is one of those three exact values, and a
process exists afterwards exactly when in addition the host starts the selected
command without error; so a process exists only if the platform string is one of
the three.  The empty string, "Windows", "android" and "freebsd" are among the
strings on which nothing is selected, nothing is started and no process exists. -/
theorem C4_start_call_iff_supported (g : String) (host : StartOutcome)
    (tr : List Effect) :
    (switchGOOS g = none ↔ ¬ (g = "windows" ∨ g = "darwin" ∨ g = "linux")) ∧
    ((init g host tr).2 = tr ↔ ¬ (g = "windows" ∨ g = "darwin" ∨ g = "linux")) ∧
    ((∃ name arg, Effect.spawn name arg ∈ initEffects g host)
        ↔ (g = "windows" ∨ g = "darwin" ∨ g = "linux")) ∧
    (processes host (initEffects g host) ≠ []
        ↔ ∃ l, switchGOOS g = some l ∧ host (Command l.cmd l.args) = none) ∧
    (processes host (initEffects g host) ≠ []
        → (g = "windows" ∨ g = "darwin" ∨ g = "linux")) ∧
    (switchGOOS "" = none ∧ initEffects "" host = []
        ∧ processes host (initEffects "" host) = []) ∧
    (switchGOOS "Windows" = none ∧ initEffects "Windows" host = []
        ∧ processes host (initEffects "Windows" host) = []) ∧
    (switchGOOS "android" = none ∧ initEffects "android" host = []
        ∧ processes host (initEffects "android" host) = []) ∧
    (switchGOOS "freebsd" = none ∧ initEffects "freebsd" host = []
        ∧ processes host (initEffects "freebsd" host) = []) := by
  have eff_none : ∀ x : String, switchGOOS x = none → initEffects x host = [] := by
    intro x hx
    unfold initEffects
    rw [init_of_none x hx]
  have eff_some : ∀ (x : String) (l : Locals), switchGOOS x = some l →
      initEffects x host = [Effect.spawn l.cmd l.args] := by
    intro x l hx
    unfold initEffects
    rw [init_of_some x l hx]; rfl
  have key : ∀ x : String, ¬ supported x →
      switchGOOS x = none ∧ initEffects x host = []
        ∧ processes host (initEffects x host) = [] := by
    intro x hx
    have hn := switchGOOS_other x hx
    refine ⟨hn, eff_none x hn, ?_⟩
    rw [eff_none x hn]; rfl
  have proc : processes host (initEffects g host) ≠ []
      ↔ ∃ l, switchGOOS g = some l ∧ host (Command l.cmd l.args) = none := by
    rcases h : switchGOOS g with _ | l
    · rw [eff_none g h]
      simp [processes]
    · rw [eff_some g l h]
      by_cases hh : host (Command l.cmd l.args) = none
      · simp [processes, hh]
      · simp [processes, hh]
  refine ⟨?_, ?_, ?_, proc, ?_, key "" (by decide), key "Windows" (by decide),
    key "android" (by decide), key "freebsd" (by decide)⟩
  · rcases switchGOOS_cases g with ⟨hg, hs⟩ | ⟨hg, hs⟩ | ⟨hg, hs⟩ | ⟨hg, hs⟩
    · rw [hs]; simp [hg]
    · rw [hs]; simp [hg]
    · rw [hs]; simp [hg]
    · exact ⟨fun _ => hg, fun _ => hs⟩
  · rcases switchGOOS_cases g with ⟨hg, hs⟩ | ⟨hg, hs⟩ | ⟨hg, hs⟩ | ⟨hg, hs⟩
    · rw [init_of_some g _ hs]; simp [hg]
    · rw [init_of_some g _ hs]; simp [hg]
    · rw [init_of_some g _ hs]; simp [hg]
    · rw [init_of_none g hs]; exact ⟨fun _ => hg, fun _ => rfl⟩
  · rcases switchGOOS_cases g with ⟨hg, hs⟩ | ⟨hg, hs⟩ | ⟨hg, hs⟩ | ⟨hg, hs⟩
    · rw [eff_some g _ hs]; simp [hg]
    · rw [eff_some g _ hs]; simp [hg]
    · rw [eff_some g _ hs]; simp [hg]
    · rw [eff_none g hs]
      constructor
      · rintro ⟨name, arg, hmem⟩
        simp at hmem
      · intro h
        exact absurd h hg
  · intro hp
    obtain ⟨l, hl, _⟩ := proc.mp hp
    rcases switchGOOS_some g l hl with ⟨hg, _⟩ | ⟨hg, _⟩ | ⟨hg, _⟩
    · exact Or.inl hg
    · exact Or.inr (Or.inl hg)
    · exact Or.inr (Or.inr hg)

/-! ## Errors and effects -/

/-- C5: for every platform string and every outcome of starting the process, `init`
completes normally.  Its completion value is `Except.ok ()` whatever the host
answers, a host that starts the command and a host that fails with any error give
the same result of `init` (completion and trace alike), and the error the start
returns never becomes the completion of `init`. -/
theorem C5_start_error_discarded (g : String) (host₁ host₂ : StartOutcome)
    (e : String) (tr : List Effect) :
    (init g host₁ tr).1 = Except.ok () ∧
    init g host₁ tr = init g host₂ tr ∧
    init g (fun _ => some e) tr = init g (fun _ => none) tr ∧
    (init g (fun _ => some e) tr).1 ≠ Except.error e := by
  have ok : ∀ host : StartOutcome, ∃ t, init g host tr = (Except.ok (), t) ∧
      ∀ host2 : StartOutcome, init g host2 tr = (Except.ok (), t) := by
    intro host
    rcases h : switchGOOS g with _ | l
    · exact ⟨tr, init_of_none g h host tr, fun host2 => init_of_none g h host2 tr⟩
    · exact ⟨_, init_of_some g l h host tr, fun host2 => init_of_some g l h host2 tr⟩
  obtain ⟨t, _, hall⟩ := ok host₁
  refine ⟨?_, ?_, ?_, ?_⟩
  · rw [hall host₁]
  · rw [hall host₁, hall host₂]
  · rw [hall (fun _ => some e), hall (fun _ => none)]
  · rw [hall (fun _ => some e)]
    intro hne
    cases hne

/-- C6: the launch is fire-and-forget.  For every platform string and every start
outcome, the effects `init` produces contain at most one spawn and no wait,
exit-status or output-capture effect, and from any earlier trace `init` only
appends those effects; on each of "windows", "darwin" and "linux" the produced
effects are exactly one spawn. -/
theorem C6_fire_and_forget (g : String) (host : StartOutcome) (tr : List Effect) :
    (initEffects g host).countP Effect.isSpawn ≤ 1 ∧
    Effect.wait ∉ initEffects g host ∧
    Effect.exitStatus ∉ initEffects g host ∧
    Effect.captureOutput ∉ initEffects g host ∧
    (init g host tr).2 = tr ++ initEffects g host ∧
    ((initEffects "windows" host).length = 1 ∧
      (initEffects "windows" host).countP Effect.isSpawn = 1) ∧
    ((initEffects "darwin" host).length = 1 ∧
      (initEffects "darwin" host).countP Effect.isSpawn = 1) ∧
    ((initEffects "linux" host).length = 1 ∧
      (initEffects "linux" host).countP Effect.isSpawn = 1) := by
  have one : ∀ (x : String) (l : Locals), switchGOOS x = some l →
      initEffects x host = [Effect.spawn l.cmd l.args] := by
    intro x l h
    unfold initEffects
    rw [init_of_some x l h]; rfl
  have cnt : ∀ (x : String) (l : Locals), switchGOOS x = some l →
      (initEffects x host).length = 1 ∧
      (initEffects x host).countP Effect.isSpawn = 1 := by
    intro x l h
    rw [one x l h]
    simp [Effect.isSpawn]
  refine ⟨?_, ?_, ?_, ?_, ?_, cnt _ _ switchGOOS_windows, cnt _ _ switchGOOS_darwin,
    cnt _ _ switchGOOS_linux⟩
  all_goals
    rcases h : switchGOOS g with _ | l
    · simp [initEffects, init_of_none g h]
    · simp [one g l h, init_of_some g l h, Effect.isSpawn]

/-! ## The selected command -/

/-- C7: on every platform string on which the switch selects a command, the last
element of the argument vector is the fixed URL "https://github.com/orenngi/mw",
that URL occurs exactly once in the vector, and it is the same literal string
whatever the platform. -/
theorem C7_url_last_and_once (g : String) (l : Locals) (h : switchGOOS g = some l) :
    l.args.getLast? = some "https://github.com/orenngi/mw" ∧
    l.args.count "https://github.com/orenngi/mw" = 1 ∧
    url = "https://github.com/orenngi/mw" := by
  rcases switchGOOS_some g l h with ⟨_, rfl⟩ | ⟨_, rfl⟩ | ⟨_, rfl⟩
  all_goals
    refine ⟨?_, ?_, rfl⟩
    · simp [url]
    · decide

/-- Witness of C7 on the platform "windows". -/
theorem C7_url_last_and_once_witness :
    switchGOOS "windows"
        = some { cmd := "rundll32", args := ["url.dll,FileProtocolHandler", url] } ∧
    (["url.dll,FileProtocolHandler", url].getLast? = some "https://github.com/orenngi/mw" ∧
      ["url.dll,FileProtocolHandler", url].count "https://github.com/orenngi/mw" = 1 ∧
      url = "https://github.com/orenngi/mw") :=
  ⟨switchGOOS_windows,
    C7_url_last_and_once "windows"
      { cmd := "rundll32", args := ["url.dll,FileProtocolHandler", url] }
      switchGOOS_windows⟩

/-- C8: "darwin" and "linux" select the same argument vector but the different
command names "open" and "xdg-open"; the command names selected on "windows",
"darwin" and "linux" are pairwise distinct; and whenever two platform strings
both select a command, the command names agree exactly when the platform strings
are equal, so the command name determines the platform. -/
theorem C8_command_name_determines_platform :
    ((switchGOOS "darwin").map Locals.args = (switchGOOS "linux").map Locals.args ∧
      (switchGOOS "darwin").map Locals.cmd = some "open" ∧
      (switchGOOS "linux").map Locals.cmd = some "xdg-open" ∧
      (switchGOOS "darwin").map Locals.cmd ≠ (switchGOOS "linux").map Locals.cmd) ∧
    ((switchGOOS "windows").map Locals.cmd ≠ (switchGOOS "darwin").map Locals.cmd ∧
      (switchGOOS "windows").map Locals.cmd ≠ (switchGOOS "linux").map Locals.cmd) ∧
    (∀ (g₁ g₂ : String) (l₁ l₂ : Locals),
      switchGOOS g₁ = some l₁ → switchGOOS g₂ = some l₂ →
        (l₁.cmd = l₂.cmd ↔ g₁ = g₂)) := by
  refine ⟨?_, ?_, ?_⟩
  · rw [switchGOOS_darwin, switchGOOS_linux]
    refine ⟨rfl, rfl, rfl, ?_⟩
    decide
  · rw [switchGOOS_windows, switchGOOS_darwin, switchGOOS_linux]
    constructor <;> decide
  · intro g₁ g₂ l₁ l₂ h₁ h₂
    rcases switchGOOS_some g₁ l₁ h₁ with ⟨rfl, rfl⟩ | ⟨rfl, rfl⟩ | ⟨rfl, rfl⟩ <;>
    rcases switchGOOS_some g₂ l₂ h₂ with ⟨rfl, rfl⟩ | ⟨rfl, rfl⟩ | ⟨rfl, rfl⟩ <;>
    decide

/-- Witness of C8 on the platforms "windows" and "linux". -/
theorem C8_command_name_determines_platform_witness :
    switchGOOS "windows"
        = some { cmd := "rundll32", args := ["url.dll,FileProtocolHandler", url] } ∧
    switchGOOS "linux" = some { cmd := "xdg-open", args := [url] } ∧
    ("rundll32" = "xdg-open" ↔ "windows" = "linux") :=
  ⟨switchGOOS_windows, switchGOOS_linux,
    C8_command_name_determines_platform.2.2 "windows" "linux"
      { cmd := "rundll32", args := ["url.dll,FileProtocolHandler", url] }
      { cmd := "xdg-open", args := [url] }
      switchGOOS_windows switchGOOS_linux⟩

/-- C9: the selection depends on the platform string alone.  The effects `init`
produces are the spawn of the command the switch selects (none when it selects
none); two runs on the same platform string produce the same effects whatever
the start outcomes and whatever the traces they start from, also when the second
run starts from the trace the first one left. -/
theorem C9_selection_deterministic (g : String) (host₁ host₂ : StartOutcome)
    (tr₁ tr₂ : List Effect) :
    initEffects g host₁
        = (switchGOOS g).toList.map (fun l => Effect.spawn l.cmd l.args) ∧
    initEffects g host₁ = initEffects g host₂ ∧
    (init g host₁ tr₁).2.drop tr₁.length = (init g host₂ tr₂).2.drop tr₂.length ∧
    (init g host₂ (init g host₁ tr₁).2).2
        = (tr₁ ++ initEffects g host₁) ++ initEffects g host₁ := by
  rcases h : switchGOOS g with _ | l
  · simp [initEffects, init_of_none g h]
  · simp [initEffects, init_of_some g l h]

end mw
